import Mathlib

/-!
Shallow embedding of the K_Oracles price-oracle system.

The on-chain part is the Solidity contract `KUSDOracle` (file
`src/unnamed/part_001`): uint256 values are modelled as `Nat` with explicit
checked arithmetic (`checkedAdd`, `checkedMul`: Solidity 0.8 reverts on
overflow and on division by zero, modelled as `none` / the `panic` error).
Mappings are modelled as total functions with the Solidity zero-value
default; reverts are modelled with `Except` / `Option`.

The off-chain node (`src/README.md`, OracleNode) and the API base class
(`src/src/api/GeckoTerminalAPI.js`, PriceSource) are JavaScript; their
numbers are modelled as `ℚ` and their control flow as pure functions.
-/

/-- Solidity uint256 modulus: arithmetic in the contract is checked against
this bound (Solidity 0.8 reverts on overflow). -/
def U256 : ℕ := 2 ^ 256

/-- Checked uint256 addition: `none` models an overflow revert. -/
def checkedAdd (a b : ℕ) : Option ℕ :=
  if a + b < U256 then some (a + b) else none

/-- Checked uint256 multiplication: `none` models an overflow revert. -/
def checkedMul (a b : ℕ) : Option ℕ :=
  if a * b < U256 then some (a * b) else none

/-- `STALENESS_THRESHOLD` constant of KUSDOracle (1 hour). -/
def STALENESS_THRESHOLD : ℕ := 3600

/-- `MAX_DEVIATION` constant of KUSDOracle (basis points). -/
def MAX_DEVIATION : ℕ := 1000

/-- `MIN_SOURCES` constant of KUSDOracle. -/
def MIN_SOURCES : ℕ := 3

/-- One left-to-right pass of the bubble sort in `_calculateMedian`
(src/unnamed/part_001, inner `j` loop): at most `k` adjacent
comparisons, swapping when the left element is greater. -/
def sortPricesPass : ℕ → List ℕ → List ℕ
  | 0, l => l
  | _ + 1, [] => []
  | _ + 1, [a] => [a]
  | k + 1, a :: b :: rest =>
    if b < a then b :: sortPricesPass k (a :: rest)
    else a :: sortPricesPass k (b :: rest)

/-- Outer `i` loop of the bubble sort: the iteration with `k + 1`
comparisons left performs one pass of length `k + 1`, matching the source
bound `sortedPrices.length - i - 1`. -/
def sortPricesLoop : List ℕ → ℕ → List ℕ
  | l, 0 => l
  | l, k + 1 => sortPricesLoop (sortPricesPass (k + 1) l) k

/-- The full bubble sort performed inside `_calculateMedian`:
`length - 1` passes of shrinking length. -/
def sortPrices (l : List ℕ) : List ℕ := sortPricesLoop l (l.length - 1)

/-- `_calculateMedian` of KUSDOracle: copy, bubble sort, then middle
element (odd length) or uint256 average of the two middle elements (even
length).  An empty array makes the loop bound `length - 1` underflow and
revert (`none`); the even-length sum is checked uint256 addition. -/
def _calculateMedian (prices : List ℕ) : Option ℕ :=
  if prices.length = 0 then none
  else if (sortPrices prices).length % 2 = 0 then
    match checkedAdd ((sortPrices prices).getD ((sortPrices prices).length / 2 - 1) 0)
        ((sortPrices prices).getD ((sortPrices prices).length / 2) 0) with
    | none => none
    | some t => some (t / 2)
  else some ((sortPrices prices).getD ((sortPrices prices).length / 2) 0)

/-- `_validatePrice` of KUSDOracle: below `MIN_SOURCES` return false;
otherwise compute the median and the deviation in basis points.  `none`
models a revert inside the computation: overflow of the multiplication or
division by a zero median. -/
def _validatePrice (newPrice : ℕ) (sourcePrices : List ℕ) : Option Bool :=
  if sourcePrices.length < MIN_SOURCES then some false
  else
    match _calculateMedian sourcePrices with
    | none => none
    | some median =>
      match checkedMul (if median < newPrice then newPrice - median else median - newPrice)
          10000 with
      | none => none
      | some t =>
        if median = 0 then none
        else some (decide (t / median ≤ MAX_DEVIATION))

/-- `PriceData` struct of KUSDOracle. -/
structure PriceData where
  price : ℕ
  timestamp : ℕ
  valid : Bool
deriving Repr, DecidableEq

/-- `OracleNode` struct of KUSDOracle. -/
structure OracleNode where
  nodeAddress : ℕ
  stake : ℕ
  reputation : ℕ
  active : Bool
  lastUpdate : ℕ
deriving Repr, DecidableEq

/-- Contract storage of KUSDOracle: the `wards` authorization mapping, the
current `priceData`, the `nodes` registry mapping (Solidity zero default
for unregistered addresses) and the `nodeList` array. -/
structure OracleState where
  wards : ℕ → ℕ
  priceData : PriceData
  nodes : ℕ → OracleNode
  nodeList : List ℕ

/-- Solidity default value of the `OracleNode` struct mapping. -/
def emptyNode : OracleNode := ⟨0, 0, 0, false, 0⟩

/-- Constructor of KUSDOracle: the deployer is authorized (`wards = 1`),
all other storage has its zero default. -/
def initState (deployer : ℕ) : OracleState :=
  { wards := fun a => if a = deployer then 1 else 0
    priceData := ⟨0, 0, false⟩
    nodes := fun _ => emptyNode
    nodeList := [] }

/-- Revert reasons of KUSDOracle (plus `panic` for checked-arithmetic
reverts). -/
inductive OracleError where
  | notAuthorized
  | invalidAddress
  | nodeAlreadyActive
  | nodeNotActive
  | invalidPrice
  | insufficientSources
  | mismatchedArrays
  | validationFailed
  | stalePrice
  | panic
deriving Repr, DecidableEq

/-- `registerNode` of KUSDOracle: `auth`-gated; rejects the zero address
and an already-active node; writes a fresh record (reputation 100,
`lastUpdate` 0) and appends the address to `nodeList`. -/
def registerNode (st : OracleState) (caller nodeAddress stake : ℕ) :
    Except OracleError OracleState :=
  if st.wards caller ≠ 1 then .error .notAuthorized
  else if nodeAddress = 0 then .error .invalidAddress
  else if (st.nodes nodeAddress).active then .error .nodeAlreadyActive
  else .ok { st with
    nodes := fun a =>
      if a = nodeAddress then ⟨nodeAddress, stake, 100, true, 0⟩ else st.nodes a
    nodeList := st.nodeList ++ [nodeAddress] }

/-- `deactivateNode` of KUSDOracle: `auth`-gated; requires the node to be
active and clears its `active` flag (the record is kept). -/
def deactivateNode (st : OracleState) (caller nodeAddress : ℕ) (_reason : String) :
    Except OracleError OracleState :=
  if st.wards caller ≠ 1 then .error .notAuthorized
  else if !(st.nodes nodeAddress).active then .error .nodeNotActive
  else .ok { st with
    nodes := fun a =>
      if a = nodeAddress then { st.nodes a with active := false } else st.nodes a }

/-- `updatePrice` of KUSDOracle, with `now` standing for
`block.timestamp`: requires an active caller, a positive price, at least
`MIN_SOURCES` source prices, matching array lengths and `_validatePrice`;
on success stores `{price, now, true}` and sets the caller's
`lastUpdate`. -/
def updatePrice (st : OracleState) (caller now newPrice : ℕ)
    (sourcePrices sources : List ℕ) : Except OracleError OracleState :=
  if !(st.nodes caller).active then .error .nodeNotActive
  else if newPrice = 0 then .error .invalidPrice
  else if sourcePrices.length < MIN_SOURCES then .error .insufficientSources
  else if sourcePrices.length ≠ sources.length then .error .mismatchedArrays
  else
    match _validatePrice newPrice sourcePrices with
    | none => .error .panic
    | some false => .error .validationFailed
    | some true => .ok { st with
        priceData := ⟨newPrice, now, true⟩
        nodes := fun a =>
          if a = caller then { st.nodes a with lastUpdate := now } else st.nodes a }

/-- `invalidatePrice` of KUSDOracle: `auth`-gated; clears only the `valid`
flag of `priceData`. -/
def invalidatePrice (st : OracleState) (caller : ℕ) : Except OracleError OracleState :=
  if st.wards caller ≠ 1 then .error .notAuthorized
  else .ok { st with priceData := { st.priceData with valid := false } }

/-- `getPriceData` of KUSDOracle. -/
def getPriceData (st : OracleState) : ℕ × ℕ × Bool :=
  (st.priceData.price, st.priceData.timestamp, st.priceData.valid)

/-- `isFresh` of KUSDOracle: `block.timestamp - priceData.timestamp` is
checked uint256 subtraction, so a stored timestamp in the future reverts
(`none`); otherwise compares the age with `STALENESS_THRESHOLD`. -/
def isFresh (st : OracleState) (now : ℕ) : Option Bool :=
  if st.priceData.timestamp ≤ now then
    some (decide (now - st.priceData.timestamp ≤ STALENESS_THRESHOLD))
  else none

/-- `peek` of KUSDOracle: returns the stored price together with
`valid && fresh && price > 0`. -/
def peek (st : OracleState) (now : ℕ) : Option (ℕ × Bool) :=
  if st.priceData.timestamp ≤ now then
    some (st.priceData.price,
      st.priceData.valid
        && decide (now - st.priceData.timestamp ≤ STALENESS_THRESHOLD)
        && decide (0 < st.priceData.price))
  else none

/-- `getActiveNodeCount` of KUSDOracle: counts the `nodeList` entries
whose current record is active. -/
def getActiveNodeCount (st : OracleState) : ℕ :=
  st.nodeList.foldl (fun c a => if (st.nodes a).active then c + 1 else c) 0

/-- A reachable contract state with node 1 registered and active: the
deployer (address 0) registers address 1 with stake 100 on the freshly
constructed contract. -/
def regState : OracleState :=
  ((registerNode (initState 0) 0 1 100).toOption).getD (initState 0)

/-- `calculateMedian` of the off-chain OracleNode (src/README.md):
JavaScript numbers are modelled as `ℚ`; `[...prices].sort((a,b) => a-b)`
is an ascending comparison sort, modelled by insertion sort; then the
middle element (odd length) or the exact mean of the two middle elements
(even length). -/
def calculateMedian (prices : List ℚ) : ℚ :=
  let sorted := prices.insertionSort (· ≤ ·)
  let mid := sorted.length / 2
  if sorted.length % 2 = 0 then (sorted.getD (mid - 1) 0 + sorted.getD mid 0) / 2
  else sorted.getD mid 0

/-- One per-asset round of `OracleNode.updateAllPrices` (src/README.md)
acting on that asset's `failureCount`: on success the counter is reset to
0 and no alert is sent; on failure it is incremented and `sendAlert` is
invoked exactly when the new count is `≥ 5`.  Returns the new count and
whether the alert fired. -/
def failureCounterStep (failed : Bool) (count : ℕ) : ℕ × Bool :=
  if failed then (count + 1, decide (5 ≤ count + 1)) else (0, false)

/-- Iterated rounds of `updateAllPrices` for one asset: threads the
failure counter through a list of round outcomes (`true` = the round
failed) and accumulates the number of `sendAlert` invocations. -/
def runFailureRounds : List Bool → ℕ → ℕ × ℕ
  | [], count => (count, 0)
  | failed :: rest, count =>
    ((runFailureRounds rest (failureCounterStep failed count).1).1,
      (if (failureCounterStep failed count).2 then 1 else 0) +
        (runFailureRounds rest (failureCounterStep failed count).1).2)

/-- `skipSources` table of `OracleNode.fetchPricesFromAllSources`
(src/README.md): DAI is skipped on binance and kucoin. -/
def skipSources (asset : String) : List String :=
  if asset = "DAI" then ["binance", "kucoin"] else []

/-- `OracleNode.fetchPricesFromAllSources` (src/README.md): each adapter
is modelled by its name and the outcome its `getPrice` call would have
(`Except`: `.error` = the call throws).  Excluded asset×source pairs are
skipped, failed calls yield `null` and are filtered out together with the
skipped ones; the function itself always returns a plain list of readings
`(source, price, timestamp)` — it never throws. -/
def fetchPricesFromAllSources (asset : String)
    (adapters : List (String × Except String ℚ)) (now : ℕ) :
    List (String × ℚ × ℕ) :=
  adapters.filterMap fun sn =>
    if sn.1 ∈ skipSources asset then none
    else
      match sn.2 with
      | .ok p => some (sn.1, p, now)
      | .error _ => none

/-- The adapters whose `getPrice` call is actually attempted by
`fetchPricesFromAllSources`: the source issues the call only in the
branch where the asset×source pair is not in the `skipSources` table. -/
def attemptedSources (asset : String)
    (adapters : List (String × Except String ℚ)) : List String :=
  (adapters.filter fun sn => decide (sn.1 ∉ skipSources asset)).map Prod.fst

/-- Default retry count of `PriceSource` (src/src/api/GeckoTerminalAPI.js):
`config.retries || 3`, where JavaScript `||` also replaces a configured
`0` (falsy) with the default. -/
def retriesOf (configRetries : Option ℕ) : ℕ :=
  match configRetries with
  | none => 3
  | some n => if n = 0 then 3 else n

/-- `PriceSource.withRetry` (src/src/api/GeckoTerminalAPI.js), from
attempt index `i`: `fn` is modelled by the outcome of its `j`-th call.
The loop `for (i = 0; i < retries; i++)` is rendered structurally on the
number `remaining = retries - i` of iterations left (`0` = the loop
condition fails and the function falls through).  Result: the value
returned or error thrown (`none` = the loop fell through, JavaScript
`undefined`), the number of attempts made, and the sleep delays (ms)
taken between attempts. -/
def withRetryAux {α : Type} (f : ℕ → Except String α) (retries : ℕ) :
    ℕ → ℕ → Option (Except String α) × ℕ × List ℕ
  | _, 0 => (none, 0, [])
  | i, remaining + 1 =>
    match f i with
    | .ok a => (some (.ok a), 1, [])
    | .error e =>
      if i = retries - 1 then (some (.error e), 1, [])
      else
        ((withRetryAux f retries (i + 1) remaining).1,
          (withRetryAux f retries (i + 1) remaining).2.1 + 1,
          1000 * (i + 1) :: (withRetryAux f retries (i + 1) remaining).2.2)

/-- `PriceSource.withRetry`: the loop starting at attempt index 0, with
all `retries` iterations ahead of it. -/
def withRetry {α : Type} (f : ℕ → Except String α) (retries : ℕ) :
    Option (Except String α) × ℕ × List ℕ :=
  withRetryAux f retries 0 retries

/-- A reachable state with a fresh successful publication: on `regState`
the active node 1 publishes candidate price 50000 at time 100, backed by
source prices `[49900, 50000, 50100]` (median 50000, deviation 0). -/
def c4state : OracleState :=
  ((updatePrice regState 1 100 50000 [49900, 50000, 50100] [7, 8, 9]).toOption).getD
    (initState 0)

/-- The state `c4state` after the authorized deployer (address 0) calls
`invalidatePrice`. -/
def c10state : OracleState :=
  ((invalidatePrice c4state 0).toOption).getD (initState 0)

/-- Register address 1, deactivate it, then register it again, all by the
authorized deployer (address 0): the run used to exercise
`getActiveNodeCount`. -/
def c9run : Option OracleState :=
  (do
    let s1 ← registerNode (initState 0) 0 1 100
    let s2 ← deactivateNode s1 0 1 "maintenance"
    registerNode s2 0 1 100).toOption

theorem sortPricesPass_perm : ∀ (k : ℕ) (l : List ℕ), (sortPricesPass k l).Perm l := by
  intro k
  induction k with
  | zero => intro l; simp [sortPricesPass]
  | succ k ih =>
    intro l
    match l with
    | [] => simp [sortPricesPass]
    | [a] => simp [sortPricesPass]
    | a :: b :: rest =>
      simp only [sortPricesPass]
      split
      · exact ((ih (a :: rest)).cons b).trans (List.Perm.swap a b rest)
      · exact (ih (b :: rest)).cons a

theorem sortPricesLoop_perm : ∀ (n : ℕ) (l : List ℕ), (sortPricesLoop l n).Perm l := by
  intro n
  induction n with
  | zero => intro l; simp [sortPricesLoop]
  | succ k ih =>
    intro l
    simp only [sortPricesLoop]
    exact (ih _).trans (sortPricesPass_perm _ l)

theorem sortPrices_perm (l : List ℕ) : (sortPrices l).Perm l :=
  sortPricesLoop_perm _ l

theorem sortPrices_length (l : List ℕ) : (sortPrices l).length = l.length :=
  (sortPrices_perm l).length_eq

theorem getD_mem_of_lt {s : List ℕ} {i : ℕ} (h : i < s.length) : s.getD i 0 ∈ s := by
  rw [List.getD_eq_getElem s 0 h]
  exact List.getElem_mem h

theorem median_pos_of_pos {prices : List ℕ} {m : ℕ}
    (hpos : ∀ p ∈ prices, 0 < p) (hm : _calculateMedian prices = some m) : 0 < m := by
  unfold _calculateMedian checkedAdd at hm
  by_cases hlen : prices.length = 0
  · simp [hlen] at hm
  · rw [if_neg hlen] at hm
    have hslen : (sortPrices prices).length = prices.length := sortPrices_length _
    have hmem : ∀ i, i < (sortPrices prices).length → 0 < (sortPrices prices).getD i 0 := by
      intro i hi
      exact hpos _ ((sortPrices_perm prices).subset (getD_mem_of_lt hi))
    by_cases heven : (sortPrices prices).length % 2 = 0
    · rw [if_pos heven] at hm
      have h1 : 0 < (sortPrices prices).getD ((sortPrices prices).length / 2 - 1) 0 :=
        hmem _ (by omega)
      have h2 : 0 < (sortPrices prices).getD ((sortPrices prices).length / 2) 0 :=
        hmem _ (by omega)
      by_cases hadd : (sortPrices prices).getD ((sortPrices prices).length / 2 - 1) 0 +
          (sortPrices prices).getD ((sortPrices prices).length / 2) 0 < U256
      · rw [if_pos hadd] at hm
        simp only [Option.some.injEq] at hm
        omega
      · rw [if_neg hadd] at hm
        simp at hm
    · rw [if_neg heven] at hm
      have h2 : 0 < (sortPrices prices).getD ((sortPrices prices).length / 2) 0 :=
        hmem _ (by omega)
      simp only [Option.some.injEq] at hm
      omega

theorem validatePrice_eq (newPrice : ℕ) (prices : List ℕ) (m : ℕ)
    (h3 : MIN_SOURCES ≤ prices.length)
    (hm : _calculateMedian prices = some m) (hm0 : 0 < m)
    (hmul : (if m < newPrice then newPrice - m else m - newPrice) * 10000 < U256) :
    _validatePrice newPrice prices =
      some (decide
        ((if m < newPrice then newPrice - m else m - newPrice) * 10000 / m ≤ MAX_DEVIATION)) := by
  unfold _validatePrice checkedMul
  rw [if_neg (by omega), hm]
  simp only [if_pos hmul, if_neg (show ¬ m = 0 by omega)]

/-- Claim C2: for every non-empty list, `calculateMedian` returns, for any
ascending-sorted permutation `s` of the input, the middle element of `s`
when the length is odd and the arithmetic mean of the two middle elements
when it is even; in particular it maps `[49900, 50000, 50100]` to `50000`
and `[1, 2]` to `3/2` (and the on-chain `_calculateMedian` also maps
`[49900, 50000, 50100]` to `50000`). -/
theorem C2_median_sorted_middle :
    (∀ (l s : List ℚ), l ≠ [] → l.Perm s → s.Sorted (· ≤ ·) →
      calculateMedian l =
        if l.length % 2 = 1 then s.getD (l.length / 2) 0
        else (s.getD (l.length / 2 - 1) 0 + s.getD (l.length / 2) 0) / 2) ∧
    calculateMedian [49900, 50000, 50100] = 50000 ∧
    calculateMedian [1, 2] = 3 / 2 ∧
    _calculateMedian [49900, 50000, 50100] = some 50000 := by
  refine ⟨?_, ?_, ?_, by rfl⟩
  · intro l s _hne hperm hsorted
    have hs : s = l.insertionSort (· ≤ ·) :=
      List.eq_of_perm_of_sorted
        (hperm.symm.trans (List.perm_insertionSort (· ≤ ·) l).symm)
        hsorted (List.sorted_insertionSort (· ≤ ·) l)
    have hlen : (l.insertionSort (· ≤ ·)).length = l.length :=
      (List.perm_insertionSort (· ≤ ·) l).length_eq
    subst hs
    rcases Nat.mod_two_eq_zero_or_one l.length with h | h <;>
      simp [calculateMedian, hlen, h]
  · simp [calculateMedian, List.insertionSort, List.orderedInsert]
    norm_num
  · simp [calculateMedian, List.insertionSort, List.orderedInsert]
    norm_num

/-- Claim C2 witness: the general clause applied to the concrete
single-element list `[5]`. -/
theorem C2_median_sorted_middle_witness : calculateMedian [5] = 5 :=
  C2_median_sorted_middle.1 [5] [5] (by simp) (List.Perm.refl _) (by simp)

/-- Claim C8 counterexample: in the reachable state `regState` the caller
(node 1) is active, the candidate price 1 is positive, three equally long
source arrays are supplied — every preceding `require` passes — yet the
median of the supplied source prices `[0, 0, 0]` is 0, `_validatePrice`
divides by zero (a revert, modelled as `none`), and `updatePrice` ends in
a panic instead of a result. -/
theorem C8_counterexample :
    (regState.nodes 1).active = true ∧
    0 < 1 ∧
    MIN_SOURCES ≤ ([0, 0, 0] : List ℕ).length ∧
    ([0, 0, 0] : List ℕ).length = ([4, 5, 6] : List ℕ).length ∧
    _calculateMedian [0, 0, 0] = some 0 ∧
    _validatePrice 1 [0, 0, 0] = none ∧
    updatePrice regState 1 10 1 [0, 0, 0] [4, 5, 6] = Except.error OracleError.panic :=
  ⟨rfl, by decide, by decide, by decide, rfl, rfl, rfl⟩

/-- Claim C8 (amended): the deviation computation in `_validatePrice` can
divide by zero (see the counterexample); what holds is that whenever every
caller-supplied source price is positive, any median the code computes is
positive, and with at least `MIN_SOURCES` prices and a non-overflowing
multiplication the validation completes by dividing by that positive
median. -/
theorem C8_median_divisor_pos :
    ∀ (prices : List ℕ) (m : ℕ), (∀ p ∈ prices, 0 < p) →
      _calculateMedian prices = some m →
      0 < m ∧
      ∀ newPrice : ℕ, MIN_SOURCES ≤ prices.length →
        (if m < newPrice then newPrice - m else m - newPrice) * 10000 < U256 →
        _validatePrice newPrice prices =
          some (decide
            ((if m < newPrice then newPrice - m else m - newPrice) * 10000 / m
              ≤ MAX_DEVIATION)) := by
  intro prices m hpos hm
  refine ⟨median_pos_of_pos hpos hm, ?_⟩
  intro newPrice h3 hmul
  exact validatePrice_eq newPrice prices m h3 hm (median_pos_of_pos hpos hm) hmul

/-- Claim C8 witness: the amended theorem applied to the positive source
list `[1, 2, 3]` (median 2) and candidate price 2. -/
theorem C8_median_divisor_pos_witness :
    0 < 2 ∧ _validatePrice 2 [1, 2, 3] = some true := by
  have h := C8_median_divisor_pos [1, 2, 3] 2 (by decide) rfl
  exact ⟨h.1, h.2 2 (by decide) (by decide)⟩

theorem updatePrice_ok_inv {st st' : OracleState} {caller now newPrice : ℕ}
    {sourcePrices sources : List ℕ}
    (h : updatePrice st caller now newPrice sourcePrices sources = Except.ok st') :
    st' = { st with
      priceData := ⟨newPrice, now, true⟩
      nodes := fun a =>
        if a = caller then { st.nodes a with lastUpdate := now } else st.nodes a } := by
  unfold updatePrice at h
  split at h
  · simp at h
  · split at h
    · simp at h
    · split at h
      · simp at h
      · split at h
        · simp at h
        · split at h
          · simp at h
          · simp at h
          · injection h with h
            exact h.symm

/-- Claim C1 counterexample: in the reachable state `regState` the caller
(node 1) is an active node and submits only two source prices, so the
claim predicts an `InsufficientSources` failure; the code instead rejects
the zero candidate price first (`KUSDOracle/invalid-price`), because the
positivity `require` precedes the source-count `require`. -/
theorem C1_counterexample :
    (regState.nodes 1).active = true ∧
    ([1, 2] : List ℕ).length < MIN_SOURCES ∧
    updatePrice regState 1 10 0 [1, 2] [7, 8] = Except.error OracleError.invalidPrice ∧
    OracleError.invalidPrice ≠ OracleError.insufficientSources :=
  ⟨rfl, by decide, rfl, by decide⟩

/-- Claim C1 (amended): `updatePrice` fails with `NotAuthorized`
(`node-not-active`) whenever the caller is not an active node; with
`invalid-price` whenever the caller is active and the candidate price is
zero; with `InsufficientSources` whenever the caller is active, the
candidate positive and fewer than `MIN_SOURCES` source prices are given;
with `MismatchedInput` whenever additionally the two arrays differ in
length; and when all those checks pass and the deviation computation is
well defined (computed median positive, multiplication within uint256),
it fails with `ValidationFailed` if the candidate's deviation from the
median exceeds `MAX_DEVIATION` bp and otherwise succeeds, storing
`{price = candidate, timestamp = now, valid = true}` and setting the
caller's `lastUpdate` to `now`. -/
theorem C1_updatePrice_cases
    (st : OracleState) (caller now newPrice : ℕ) (sourcePrices sources : List ℕ) :
    ((st.nodes caller).active = false →
      updatePrice st caller now newPrice sourcePrices sources =
        Except.error OracleError.nodeNotActive) ∧
    ((st.nodes caller).active = true → newPrice = 0 →
      updatePrice st caller now newPrice sourcePrices sources =
        Except.error OracleError.invalidPrice) ∧
    ((st.nodes caller).active = true → 0 < newPrice →
      sourcePrices.length < MIN_SOURCES →
      updatePrice st caller now newPrice sourcePrices sources =
        Except.error OracleError.insufficientSources) ∧
    ((st.nodes caller).active = true → 0 < newPrice →
      MIN_SOURCES ≤ sourcePrices.length → sourcePrices.length ≠ sources.length →
      updatePrice st caller now newPrice sourcePrices sources =
        Except.error OracleError.mismatchedArrays) ∧
    (∀ m : ℕ, (st.nodes caller).active = true → 0 < newPrice →
      MIN_SOURCES ≤ sourcePrices.length → sourcePrices.length = sources.length →
      _calculateMedian sourcePrices = some m → 0 < m →
      (if m < newPrice then newPrice - m else m - newPrice) * 10000 < U256 →
      (MAX_DEVIATION < (if m < newPrice then newPrice - m else m - newPrice) * 10000 / m →
        updatePrice st caller now newPrice sourcePrices sources =
          Except.error OracleError.validationFailed) ∧
      ((if m < newPrice then newPrice - m else m - newPrice) * 10000 / m ≤ MAX_DEVIATION →
        (updatePrice st caller now newPrice sourcePrices sources).map
            (fun s => (getPriceData s, (s.nodes caller).lastUpdate)) =
          Except.ok ((newPrice, now, true), now))) := by
  refine ⟨?_, ?_, ?_, ?_, ?_⟩
  · intro h
    simp [updatePrice, h]
  · intro h h0
    simp [updatePrice, h, h0]
  · intro h h0 hlt
    simp [updatePrice, h, Nat.pos_iff_ne_zero.mp h0, hlt]
  · intro h h0 h3 hne
    simp [updatePrice, h, Nat.pos_iff_ne_zero.mp h0,
      (show ¬ sourcePrices.length < MIN_SOURCES by omega), hne]
  · intro m h h0 h3 heq hmed hm0 hmul
    have hv := validatePrice_eq newPrice sourcePrices m h3 hmed hm0 hmul
    constructor
    · intro hdev
      have hfd : decide
          ((if m < newPrice then newPrice - m else m - newPrice) * 10000 / m
            ≤ MAX_DEVIATION) = false := by
        simp only [decide_eq_false_iff_not]
        omega
      rw [ite_mul] at hfd
      simp [updatePrice, h, Nat.pos_iff_ne_zero.mp h0,
        (show ¬ sourcePrices.length < MIN_SOURCES by omega),
        (show ¬ sources.length < MIN_SOURCES by omega), heq, hv, hfd]
    · intro hdev
      have hft : decide
          ((if m < newPrice then newPrice - m else m - newPrice) * 10000 / m
            ≤ MAX_DEVIATION) = true := by
        simp only [decide_eq_true_eq]
        omega
      rw [ite_mul] at hft
      simp [updatePrice, h, Nat.pos_iff_ne_zero.mp h0,
        (show ¬ sourcePrices.length < MIN_SOURCES by omega),
        (show ¬ sources.length < MIN_SOURCES by omega), heq, hv, hft, getPriceData,
        Except.map]

/-- Claim C1 witness: the success clause of the amended theorem on the
reachable state `regState`: the active node 1 publishes price 50000 at
time 100 against source prices `[49900, 50000, 50100]` (median 50000,
deviation 0 bp) and the registry afterwards holds
`(50000, 100, valid = true)` with the node's `lastUpdate` set to 100. -/
theorem C1_updatePrice_cases_witness :
    (updatePrice regState 1 100 50000 [49900, 50000, 50100] [7, 8, 9]).map
        (fun s => (getPriceData s, (s.nodes 1).lastUpdate)) =
      Except.ok ((50000, 100, true), 100) := by
  have h :=
    (C1_updatePrice_cases regState 1 100 50000 [49900, 50000, 50100] [7, 8, 9]).2.2.2.2
      50000 rfl (by decide) (by decide) (by decide) rfl (by decide) (by decide)
  exact h.2 (by decide)

/-- Claim C4: `isFresh` returns exactly the truth value of
`now - timestamp ≤ STALENESS_THRESHOLD (3600)`; immediately after a
successful `updatePrice` at time `t` it is true, it stays true exactly
while `now ≤ t + 3600`, and it is false exactly once more than 3600
seconds have elapsed, with no invalidation call involved. -/
theorem C4_isFresh_threshold :
    (∀ (st : OracleState) (now : ℕ), st.priceData.timestamp ≤ now →
      isFresh st now = some (decide (now - st.priceData.timestamp ≤ STALENESS_THRESHOLD))) ∧
    (∀ (st st' : OracleState) (caller t newPrice : ℕ) (sourcePrices sources : List ℕ),
      updatePrice st caller t newPrice sourcePrices sources = Except.ok st' →
      isFresh st' t = some true ∧
      (∀ now : ℕ, t ≤ now →
        (isFresh st' now = some true ↔ now ≤ t + STALENESS_THRESHOLD) ∧
        (isFresh st' now = some false ↔ t + STALENESS_THRESHOLD < now))) := by
  constructor
  · intro st now hle
    simp [isFresh, hle]
  · intro st st' caller t newPrice sp srcs hup
    have hinv := updatePrice_ok_inv hup
    subst hinv
    constructor
    · simp [isFresh]
    · intro now hle
      refine ⟨?_, ?_⟩ <;> simp [isFresh, hle] <;> omega

/-- Claim C4 witness: on the reachable state `c4state` (published at time
100 with threshold 3600) freshness holds at time 100 and at the boundary
3700, and fails at 3701. -/
theorem C4_isFresh_threshold_witness :
    isFresh c4state 100 = some true ∧
    (isFresh c4state 3700 = some true ↔ (3700 : ℕ) ≤ 3700) ∧
    (isFresh c4state 3701 = some false ↔ (3700 : ℕ) < 3701) := by
  have h := C4_isFresh_threshold.2 regState c4state 1 100 50000
    [49900, 50000, 50100] [7, 8, 9] rfl
  exact ⟨h.1, (h.2 3700 (by decide)).1, (h.2 3701 (by decide)).2⟩

/-- Claim C5: an authorized `invalidatePrice` call succeeds and the
subsequent `getPriceData` read returns `valid = false` together with the
exact stored price and timestamp from before the invalidation. -/
theorem C5_invalidate_preserves_fields (st : OracleState) (caller : ℕ)
    (h : st.wards caller = 1) :
    (invalidatePrice st caller).map getPriceData =
      Except.ok (st.priceData.price, st.priceData.timestamp, false) := by
  simp [invalidatePrice, h, getPriceData, Except.map]

/-- Claim C5 witness: invalidating the reachable published state
`c4state` (price 50000, timestamp 100) yields `(50000, 100, false)`. -/
theorem C5_invalidate_preserves_fields_witness :
    (invalidatePrice c4state 0).map getPriceData = Except.ok (50000, 100, false) :=
  C5_invalidate_preserves_fields c4state 0 rfl

theorem invalidatePrice_ok_inv {st st' : OracleState} {caller : ℕ}
    (h : invalidatePrice st caller = Except.ok st') :
    st' = { st with priceData := { st.priceData with valid := false } } := by
  unfold invalidatePrice at h
  split at h
  · simp at h
  · injection h with h
    exact h.symm

/-- Claim C10: `isFresh` depends only on the stored timestamp and never
consults the `valid` flag: changing `valid` never changes `isFresh`, and
within the staleness window after an authorized `invalidatePrice` the
state is still fresh while `peek` reports the price as not valid. -/
theorem C10_isFresh_ignores_valid :
    (∀ (st : OracleState) (now : ℕ) (b : Bool),
      isFresh { st with priceData := { st.priceData with valid := b } } now =
        isFresh st now) ∧
    (∀ (st st' : OracleState) (caller now : ℕ),
      invalidatePrice st caller = Except.ok st' →
      isFresh st' now = isFresh st now ∧
      (st.priceData.timestamp ≤ now →
        now - st.priceData.timestamp ≤ STALENESS_THRESHOLD →
        isFresh st' now = some true ∧
        peek st' now = some (st.priceData.price, false))) := by
  constructor
  · intro st now b
    simp [isFresh]
  · intro st st' caller now h
    have hinv := invalidatePrice_ok_inv h
    subst hinv
    refine ⟨by simp [isFresh], ?_⟩
    intro hle hfresh
    constructor
    · simp [isFresh, hle, hfresh]
    · simp [peek, hle]

/-- Claim C10 witness: at time 200 the invalidated reachable state
`c10state` is still fresh (same answer as before the invalidation) while
`peek` reports `(50000, valid = false)`. -/
theorem C10_isFresh_ignores_valid_witness :
    isFresh c10state 200 = isFresh c4state 200 ∧
    isFresh c10state 200 = some true ∧
    peek c10state 200 = some (50000, false) := by
  have h := C10_isFresh_ignores_valid.2 c4state c10state 0 200 rfl
  exact ⟨h.1, (h.2 (by decide) (by decide)).1, (h.2 (by decide) (by decide)).2⟩

/-- Claim C3 counterexample: six consecutive failed rounds starting from a
zero counter cross the threshold of 5 exactly once, yet the code invokes
the alert callback twice (at the 5th and again at the 6th failure) — it
does re-alert on a subsequent consecutive failure beyond the crossing. -/
theorem C3_counterexample :
    runFailureRounds (List.replicate 6 true) 0 = (6, 2) ∧ (2 : ℕ) ≠ 1 :=
  ⟨by decide, by decide⟩

/-- Claim C3 (amended): the per-asset counter is reset to zero on any
accepted publication and incremented by one on any failed round, as
claimed; but the alert callback is invoked on every failed round whose
resulting count reaches 5 or more — a streak of `k` consecutive failures
starting from count `c` fires `(c + k) - max c 4` alerts (so `k - 4`
alerts from a zero counter, not exactly one per crossing). -/
theorem C3_failure_counter_alerts :
    (∀ c : ℕ, failureCounterStep false c = (0, false)) ∧
    (∀ c : ℕ, failureCounterStep true c = (c + 1, decide (5 ≤ c + 1))) ∧
    (∀ (k c : ℕ), runFailureRounds (List.replicate k true) c = (c + k, (c + k) - max c 4)) := by
  refine ⟨fun c => rfl, fun c => rfl, ?_⟩
  intro k
  induction k with
  | zero =>
    intro c
    show (c, 0) = (c + 0, c + 0 - max c 4)
    simp only [Prod.mk.injEq]
    omega
  | succ k ih =>
    intro c
    rw [List.replicate_succ]
    show ((runFailureRounds (List.replicate k true) (failureCounterStep true c).1).1,
      (if (failureCounterStep true c).2 then 1 else 0) +
        (runFailureRounds (List.replicate k true) (failureCounterStep true c).1).2) = _
    rw [show failureCounterStep true c = (c + 1, decide (5 ≤ c + 1)) from rfl]
    dsimp only
    rw [ih (c + 1)]
    dsimp only
    simp only [Prod.mk.injEq, decide_eq_true_eq]
    constructor
    · omega
    · split <;> omega

theorem foldl_count_filter (p : ℕ → Bool) :
    ∀ (l : List ℕ) (c : ℕ),
      l.foldl (fun c a => if p a then c + 1 else c) c = c + (l.filter p).length := by
  intro l
  induction l with
  | nil => intro c; simp
  | cons a l ih =>
    intro c
    by_cases h : p a <;> simp [h, List.filter_cons, ih]
    omega

/-- Claim C9 counterexample: registering address 1, deactivating it and
registering it again (all three calls succeed) leaves `nodeList` with two
entries for the same address, so `getActiveNodeCount` returns 2 while the
number of distinct addresses whose record is active is 1. -/
theorem C9_counterexample :
    c9run.map getActiveNodeCount = some 2 ∧
    c9run.map
        (fun s => (s.nodeList.dedup.filter (fun a => (s.nodes a).active)).length) =
      some 1 ∧
    (2 : ℕ) ≠ 1 :=
  ⟨rfl, rfl, by decide⟩

/-- Claim C9 (amended): `getActiveNodeCount` returns the number of
`nodeList` entries — counted with multiplicity, one per successful
registration — whose node record is currently active; since `registerNode`
appends the address on every successful call, the
register–deactivate–register sequence makes `nodeList = [1, 1]` and the
count 2, not 1. -/
theorem C9_activeNodeCount_entries :
    (∀ st : OracleState,
      getActiveNodeCount st =
        (st.nodeList.filter (fun a => (st.nodes a).active)).length) ∧
    c9run.map (fun s => s.nodeList) = some [1, 1] ∧
    c9run.map getActiveNodeCount = some 2 := by
  refine ⟨?_, rfl, rfl⟩
  intro st
  simpa using foldl_count_filter (fun a => (st.nodes a).active) st.nodeList 0

/-- Claim C6: `fetchPricesFromAllSources` never throws and returns exactly
the successful readings: a reading `(n, p, now)` is produced precisely
when adapter `n` would return `p` and the asset×source pair is not in the
exclusion table; failed fetches are filtered out, and excluded adapters
(DAI on binance and kucoin) are never among the sources whose `getPrice`
call is attempted. -/
theorem C6_fetchAll_filters :
    (∀ (asset : String) (adapters : List (String × Except String ℚ)) (now : ℕ)
        (n : String) (p : ℚ),
      (n, p, now) ∈ fetchPricesFromAllSources asset adapters now ↔
        (n, Except.ok p) ∈ adapters ∧ n ∉ skipSources asset) ∧
    (∀ (asset : String) (adapters : List (String × Except String ℚ)) (n : String),
      n ∈ skipSources asset → n ∉ attemptedSources asset adapters) ∧
    "binance" ∈ skipSources "DAI" ∧ "kucoin" ∈ skipSources "DAI" := by
  refine ⟨?_, ?_, by simp [skipSources], by simp [skipSources]⟩
  · intro asset adapters now n p
    simp only [fetchPricesFromAllSources, List.mem_filterMap]
    constructor
    · rintro ⟨⟨a, r⟩, hmem, hf⟩
      dsimp only at hf
      by_cases hskip : a ∈ skipSources asset
      · rw [if_pos hskip] at hf
        simp at hf
      · rw [if_neg hskip] at hf
        rcases r with e | q
        · simp at hf
        · simp only [Option.some.injEq, Prod.mk.injEq] at hf
          obtain ⟨h1, h2, -⟩ := hf
          subst h1
          subst h2
          exact ⟨hmem, hskip⟩
    · rintro ⟨hmem, hskip⟩
      refine ⟨(n, Except.ok p), hmem, ?_⟩
      dsimp only
      rw [if_neg hskip]
  · intro asset adapters n hn hatt
    simp only [attemptedSources, List.mem_map, List.mem_filter] at hatt
    obtain ⟨⟨a, r⟩, ⟨hmem, hdec⟩, heq⟩ := hatt
    dsimp only at heq hdec
    subst heq
    exact (of_decide_eq_true hdec) hn

/-- Claim C6 witness: with DAI and two adapters — binance (which would
throw) and coingecko (which returns 1) — the result contains exactly the
coingecko reading and binance is not among the attempted calls. -/
theorem C6_fetchAll_filters_witness :
    ("coingecko", (1 : ℚ), 0) ∈
      fetchPricesFromAllSources "DAI"
        [("binance", Except.error "HTTP 451"), ("coingecko", Except.ok 1)] 0 ∧
    "binance" ∉ attemptedSources "DAI"
      [("binance", Except.error "HTTP 451"), ("coingecko", Except.ok 1)] := by
  constructor
  · exact (C6_fetchAll_filters.1 "DAI"
      [("binance", Except.error "HTTP 451"), ("coingecko", Except.ok 1)] 0
      "coingecko" 1).mpr ⟨by simp, by simp [skipSources]⟩
  · exact C6_fetchAll_filters.2.1 "DAI"
      [("binance", Except.error "HTTP 451"), ("coingecko", Except.ok 1)]
      "binance" (by simp [skipSources])

theorem withRetryAux_attempts {α : Type} (f : ℕ → Except String α) (retries : ℕ) :
    ∀ (remaining i : ℕ), (withRetryAux f retries i remaining).2.1 ≤ remaining := by
  intro remaining
  induction remaining with
  | zero => intro i; simp [withRetryAux]
  | succ r ih =>
    intro i
    cases hf : f i with
    | ok a => simp [withRetryAux, hf]
    | error e =>
      simp only [withRetryAux, hf]
      split
      · simp
      · dsimp only
        have := ih (i + 1)
        omega

theorem withRetryAux_all_fail {α : Type} (f : ℕ → Except String α) (g : ℕ → String)
    (retries : ℕ) (hfail : ∀ j, j < retries → f j = .error (g j)) :
    ∀ (remaining i : ℕ), remaining ≠ 0 → i + remaining = retries →
      withRetryAux f retries i remaining =
        (some (.error (g (retries - 1))), remaining,
          (List.range' (i + 1) (remaining - 1)).map (fun t => 1000 * t)) := by
  intro remaining
  induction remaining with
  | zero => intro i h0 _; exact absurd rfl h0
  | succ r ih =>
    intro i _ hsum
    have hi : i < retries := by omega
    simp only [withRetryAux, hfail i hi]
    by_cases hlast : i = retries - 1
    · have hr : r = 0 := by omega
      subst hr
      rw [if_pos hlast, hlast]
      simp
    · rw [if_neg hlast]
      have hr : r ≠ 0 := by omega
      rw [ih (i + 1) hr (by omega)]
      dsimp only
      obtain ⟨r', rfl⟩ : ∃ r', r = r' + 1 := ⟨r - 1, by omega⟩
      simp [List.range'_succ]

/-- Claim C7: `withRetry` makes at most `retries` attempts (so the loop
always terminates); when every attempt fails it makes exactly `retries`
attempts, sleeps `1000 * attemptIndex` ms between consecutive attempts,
and raises the error of the last attempt to the caller; the constructor
default for `retries` is 3 (also when a falsy 0 is configured). -/
theorem C7_withRetry_bounded :
    (∀ (α : Type) (f : ℕ → Except String α) (retries : ℕ),
      (withRetry f retries).2.1 ≤ retries) ∧
    (∀ (α : Type) (f : ℕ → Except String α) (g : ℕ → String) (retries : ℕ),
      0 < retries → (∀ j, j < retries → f j = .error (g j)) →
      withRetry f retries =
        (some (.error (g (retries - 1))), retries,
          (List.range' 1 (retries - 1)).map (fun t => 1000 * t))) ∧
    retriesOf none = 3 ∧ retriesOf (some 0) = 3 := by
  refine ⟨?_, ?_, rfl, rfl⟩
  · intro α f retries
    exact withRetryAux_attempts f retries retries 0
  · intro α f g retries hpos hfail
    exact withRetryAux_all_fail f g retries hfail retries 0 (by omega) (by omega)

/-- Claim C7 witness: an operation that always throws, wrapped with the
default 3 retries, is attempted exactly 3 times with 1000 ms and 2000 ms
backoff sleeps and the last error is raised. -/
theorem C7_withRetry_bounded_witness :
    withRetry (fun _ => (Except.error "boom" : Except String ℚ)) (retriesOf none) =
      (some (Except.error "boom"), 3, [1000, 2000]) := by
  have h := C7_withRetry_bounded.2.1 ℚ (fun _ => (Except.error "boom" : Except String ℚ))
    (fun _ => "boom") 3 (by decide) (fun j _ => rfl)
  exact h

